import Mathlib

/-!
Verification development for the `alx-home/promise` C++ coroutine promise
library.  The definitions below are a shallow embedding of the code in
`include/promise/impl/Promise.inl` (together with the `Resolve`/`Reject`
capability classes of `include/promise/core/Resolve.inl`,
`include/promise/core/Reject.inl` and their implementations in
`src/Promise.cpp`).  C++ value types are modelled by symbolic type codes,
exceptions by a record carrying the dynamic-type set of the thrown object,
and the thread-interleaving behaviour of one promise state by an explicit
transition system whose events are the critical sections of the promise
mutex (registration, settlement, body completion, detach).
-/

namespace PromiseSpec

/-- Model of a C++ value flowing through a promise chain.  `unit` is the
result of a `void` promise, `prim n` a value of some primitive type,
`optNone`/`optSome` the states of a `std::optional`, and `varFst`/`varSnd`
the two alternatives of a `std::variant<T2, T>` as produced by `Catch`
(first alternative `T2`, second alternative `T`). -/
inductive Val where
  | unit
  | prim (n : Nat)
  | optNone
  | optSome (n : Nat)
  | varFst (n : Nat)
  | varSnd (n : Nat)
deriving DecidableEq, Repr

/-- Model of a thrown C++ exception as stored in a `std::exception_ptr`.
`dynTys` is the set of type codes the thrown object is dynamically an
instance of (its own class and every base class), so "of that type or a
subtype" is membership in `dynTys`.  `data` is the payload. -/
structure Err where
  dynTys : List Nat
  data : Nat
deriving DecidableEq, Repr

/-- Settled outcome of a promise: either resolved with a value or rejected
with a stored exception. -/
inductive Outcome where
  | resolved (v : Val)
  | rejected (e : Err)
deriving DecidableEq, Repr

/-- Symbolic antecedent / handler-return value type: `void` or some
non-void primitive type identified by a code.  Two distinct codes stand
for two distinct C++ types. -/
inductive Ty where
  | void
  | base (n : Nat)
deriving DecidableEq, Repr

/-- Symbolic result value type of a combinator: besides `void` and the
primitive codes it can be `std::optional<t>` or `std::variant<a, b>`. -/
inductive RTy where
  | void
  | base (n : Nat)
  | opt (t : Ty)
  | variant (a b : Ty)
deriving DecidableEq, Repr

/-- Embed a plain value type into the result-type grammar. -/
def Ty.toRTy : Ty → RTy
  | .void => .void
  | .base n => .base n

/-- Typing of input values: a `void` value is `unit`, a `base` value is a
primitive. -/
def Val.hasTy : Val → Ty → Bool
  | .unit, .void => true
  | .prim _, .base _ => true
  | _, _ => false

/-- Typing of combinator result values against the result-type grammar. -/
def Val.hasRTy : Val → RTy → Bool
  | .unit, .void => true
  | .prim _, .base _ => true
  | .optNone, .opt _ => true
  | .optSome _, .opt (.base _) => true
  | .varFst _, .variant (.base _) _ => true
  | .varSnd _, .variant _ (.base _) => true
  | _, _ => false

/-- Result value type of `Catch`, translated from the `return_t`
computation in `impl/Promise.inl` lines 850-862: the code tests, in
order, `is_void_v<T2> && is_void_v<T>`, `is_void_v<T2>`, `is_void_v<T>`,
`is_same_v<T, T2>`, and otherwise produces `variant<T2, T>`.  First
argument is the antecedent type `T`, second the handler return type
`T2`. -/
def catchResultTy : Ty → Ty → RTy
  | .void, .void => .void
  | .base n, .void => .opt (.base n)
  | .void, .base m => .opt (.base m)
  | .base n, .base m => if n = m then .base m else .variant (.base m) (.base n)

/-- Result value type of `Catch` as written in the specification's table
in section 4.4 (void/void -> void; non-void T, void T2 -> optional T;
void T, non-void T2 -> optional T2; T == T2 -> T; otherwise
variant T2 T). -/
def specCatchTable : Ty → Ty → RTy
  | .void, .void => .void
  | .base n, .void => .opt (.base n)
  | .void, .base m => .opt (.base m)
  | .base n, .base m => if n = m then .base n else .variant (.base m) (.base n)

/-- Value conversion on `Catch`'s resolved path, from the coroutine body
in `impl/Promise.inl` lines 886-896: for void `T` the body returns
nothing (`T2` void) or an empty `optional<T2>`; for non-void `T` the
body returns `co_await self`, implicitly converted to the result type
(engaged `optional<T>` when `T2` is void, the value itself when
`T == T2`, second alternative of `variant<T2, T>` otherwise). -/
def catchPass : Ty → Ty → Val → Val
  | .void, .void, _ => .unit
  | .void, .base _, _ => .optNone
  | .base _, .void, .prim x => .optSome x
  | .base n, .base m, .prim x => if n = m then .prim x else .varSnd x
  | _, _, _ => .unit

/-- Value conversion applied to the handler's return value on `Catch`'s
handled-rejection path, from `impl/Promise.inl` lines 909-927: when `T2`
is void the body returns nothing (void `T`) or an empty `optional<T>`;
when `T2` is non-void the handler result is converted to the result type
(engaged `optional<T2>` for void `T`, the value itself when `T == T2`,
first alternative of `variant<T2, T>` otherwise). -/
def catchHandlerWrap : Ty → Ty → Val → Val
  | .void, .void, _ => .unit
  | .base _, .void, _ => .optNone
  | .void, .base _, .prim r => .optSome r
  | .base n, .base m, .prim r => if n = m then .prim r else .varFst r
  | _, _, _ => .unit

/-- Declared type of the single `Catch` handler parameter: either the
generic error handle `std::exception_ptr` or a const reference to a
concrete exception class with type code `t`. -/
inductive HandlerParam where
  | excPtr
  | concrete (t : Nat)
deriving DecidableEq, Repr

/-- Whether a rejection is handled by the `Catch` clauses in
`impl/Promise.inl` lines 897-905: the clause
`catch (remove_cvref_t<Exception> const& e)` fires when the stored error
is dynamically of the declared class or a subtype, and `catch (...)`
captures everything when the parameter is `std::exception_ptr` and
rethrows otherwise. -/
def catchMatches : HandlerParam → Err → Bool
  | .excPtr, _ => true
  | .concrete t, e => e.dynTys.contains t

/-- Result of running a `Catch` (or `Then`) continuation: the settled
outcome of the new promise plus the number of handler invocations. -/
structure CatchOut where
  result : Outcome
  handlerCalls : Nat
deriving DecidableEq, Repr

/-- Semantics of the `Catch` continuation body (`impl/Promise.inl` lines
880-931, plain-function handler) as a function of the antecedent's
settled outcome: a resolved antecedent passes through via `catchPass`
without invoking the handler; a rejection caught by the clauses invokes
the handler exactly once and resolves with the wrapped handler result; an
uncaught rejection is rethrown out of the body, rejecting the new promise
with the original error. -/
def catchRun (T T2 : Ty) (p : HandlerParam) (h : Err → Val) : Outcome → CatchOut
  | .resolved v => ⟨.resolved (catchPass T T2 v), 0⟩
  | .rejected e =>
    if catchMatches p e then ⟨.resolved (catchHandlerWrap T T2 (h e)), 1⟩
    else ⟨.rejected e, 0⟩

/-- The `Catch` already-settled fast path, `impl/Promise.inl` lines
864-878: taken whenever `IsDone()` holds.  If an exception is stored it
returns `return_t::Reject(GetException())` without consulting the
handler; otherwise it resolves with the converted antecedent value
(nothing / empty `optional<T2>` for void `T`, `Resolve(GetValue())` with
the implicit conversion to the result type for non-void `T`). -/
def catchFast (T T2 : Ty) : Outcome → CatchOut
  | .rejected e => ⟨.rejected e, 0⟩
  | .resolved v =>
    match T, T2, v with
    | .void, .void, _ => ⟨.resolved .unit, 0⟩
    | .void, .base _, _ => ⟨.resolved .optNone, 0⟩
    | .base _, .void, .prim x => ⟨.resolved (.optSome x), 0⟩
    | .base n, .base m, .prim x =>
      ⟨.resolved (if n = m then .prim x else .varSnd x), 0⟩
    | _, _, _ => ⟨.resolved .unit, 0⟩

/-- Semantics of `Then`'s continuation body for a non-void antecedent and
a plain-function handler (`impl/Promise.inl` lines 772-812): the body
awaits the antecedent inside a try block; a rejection rethrown by
`co_await self` is caught and forwarded through `(*reject)` without
invoking the handler, while on a resolved antecedent the handler runs
once and its result (or the exception it throws) settles the new
promise.  The handler is modelled as returning `Except`: `.error f`
stands for the handler throwing `f`. -/
def thenSlow (h : Val → Except Err Val) : Outcome → Outcome × Nat
  | .rejected e => (.rejected e, 0)
  | .resolved v =>
    match h v with
    | .ok r => (.resolved r, 1)
    | .error f => (.rejected f, 1)

/-- `Then`'s synchronous fast path for a non-void antecedent
(`impl/Promise.inl` lines 711-742): it is taken only when
`IsResolved(lock)` holds, which for a non-void value type means a value
is stored; the handler then runs in the caller's context and a thrown
exception is caught and turned into a rejected result.  `none` means the
fast path is not taken. -/
def thenFast (h : Val → Except Err Val) : Outcome → Option (Outcome × Nat)
  | .rejected _ => none
  | .resolved v =>
    some (match h v with
          | .ok r => (.resolved r, 1)
          | .error f => (.rejected f, 1))

/-- Settlement cell of a `void` promise as seen by the fast-path gates:
`Resolver<void, WITH_RESOLVER>` has no stored value, only the shared
`resolved_` flag (set by `Resolve` and `Reject` alike) and the stored
`exception_`.  `ValuePromise<T, true>::IsResolved` reads exactly the
`resolved_` flag. -/
structure VoidCell where
  resolved_ : Bool
  exception_ : Option Err
deriving DecidableEq, Repr

/-- Gate of `Then`'s fast path for a void antecedent
(`impl/Promise.inl` line 717): `this->IsResolved(lock)`, which for a
void value type is the shared `resolved_` flag of the resolver — true
whether the promise was resolved or rejected. -/
def thenVoidFastTaken (st : VoidCell) : Bool := st.resolved_

/-- Body of `Then`'s fast path for a void antecedent
(`impl/Promise.inl` lines 723-729): the handler is invoked with the
extra arguments only (no value) and its result resolves the new promise;
an exception it throws is caught and rejects the new promise.  The
stored exception of the antecedent is never consulted. -/
def thenVoidFastBody (h : Unit → Except Err Val) : Outcome × Nat :=
  match h () with
  | .ok r => (.resolved r, 1)
  | .error f => (.rejected f, 1)

/-- Semantics of `Then`'s continuation body for a void antecedent and a
plain-function handler (`impl/Promise.inl` lines 784-791 inside the try
of lines 783-802): `co_await self` rethrows a stored rejection, which is
caught and forwarded through `(*reject)` without invoking the handler;
on a resolved antecedent the handler runs once. -/
def thenVoidSlow (oc : Outcome) (h : Unit → Except Err Val) : Outcome × Nat :=
  match oc with
  | .rejected e => (.rejected e, 0)
  | .resolved _ =>
    match h () with
    | .ok r => (.resolved r, 1)
    | .error f => (.rejected f, 1)

/-- Semantics of the `Finally` continuation body for a plain (non
promise-returning) handler, `impl/Promise.inl` lines 1032-1079: on a
resolved antecedent the handler runs and then `resolve(result)`
forwards the value, the handler's own exception being caught and passed
to `reject`; on a rejected antecedent the exception of `co_await self`
is caught, the handler then runs outside any try block (so an exception
it throws leaves the body and rejects the new promise through
`unhandled_exception`), and otherwise the original error is forwarded
through `reject`. -/
def finallyBody (oc : Outcome) (h : Except Err Unit) : Outcome × Nat :=
  match oc with
  | .resolved v =>
    match h with
    | .ok _ => (.resolved v, 1)
    | .error f => (.rejected f, 1)
  | .rejected e =>
    match h with
    | .ok _ => (.rejected e, 1)
    | .error f => (.rejected f, 1)

/-- `Finally`'s fast path for a non-void antecedent
(`impl/Promise.inl` lines 947-959): taken only when a value is stored;
the handler runs and the stored value is forwarded, the handler's
exception being caught and turned into a rejection. -/
def finallyFast (v : Val) (h : Except Err Unit) : Outcome × Nat :=
  match h with
  | .ok _ => (.resolved v, 1)
  | .error f => (.rejected f, 1)

/-- Gate of `Finally`'s fast path for a void antecedent
(`impl/Promise.inl` line 947): `this->IsResolved(lock)`, which for void
is the shared `resolved_` flag — true also for a rejected promise. -/
def finallyVoidFastTaken (st : VoidCell) : Bool := st.resolved_

/-- Body of `Finally`'s fast path for a void antecedent
(`impl/Promise.inl` lines 949-958): the handler runs and the new promise
is resolved with no value (`Promise<T, true>::Resolve()`); the stored
exception of the antecedent is never consulted. -/
def finallyVoidFastBody (h : Except Err Unit) : Outcome × Nat :=
  match h with
  | .ok _ => (.resolved .unit, 1)
  | .error f => (.rejected f, 1)

/-- `InitSuspend::await_resume` (`impl/Promise.inl` lines 397-410),
reached when the promise body is first resumed: with no resolver wired
up (the promise was created without `MakePromise`), a resolver-style
promise throws `std::runtime_error`, a resolver-less one installs a
fresh default resolver; with a resolver present the body proceeds.  The
result is the presence of a resolver after the call. -/
def initSuspendResume (withResolver hasResolver : Bool) : Except String Bool :=
  if !hasResolver then
    if withResolver then
      .error "Promise with resolver must be created with MakePromise"
    else
      .ok true
  else
    .ok hasResolver

/-- One resolve or reject request against a settlement cell. -/
inductive COp where
  | resolve (v : Val)
  | reject (e : Err)
deriving DecidableEq, Repr

/-- Settlement cell of a non-void promise together with the two
capability objects' private once-flags: `resolved_` is the shared flag
of `Resolver<T, WITH_RESOLVER>` (`impl/Promise.inl` line 147), `value_`
and `exception_` its stored outcome, while `res_used` and `rej_used` are
the independent `resolved_`/`rejected_` flags of the `Resolve<T>` and
`Reject` capability classes (`core/Resolve.inl`, `core/Reject.inl`). -/
structure Cell where
  resolved_ : Bool
  value_ : Option Val
  exception_ : Option Err
  res_used : Bool
  rej_used : Bool
deriving DecidableEq, Repr

/-- Fresh settlement cell. -/
def Cell.start : Cell := ⟨false, none, none, false, false⟩

/-- `Resolver<T, WITH_RESOLVER>::Resolve` (`impl/Promise.inl` lines
171-185): wins iff the shared `resolved_` flag was still false, in which
case the value is stored; the returned boolean reports whether this call
won. -/
def resolverResolve (v : Val) (s : Cell) : Bool × Cell :=
  if s.resolved_ then (false, s)
  else (true, { s with resolved_ := true, value_ := some v })

/-- `Resolver<T, WITH_RESOLVER>::Reject` (`impl/Promise.inl` lines
189-203): same contract with the exception slot. -/
def resolverReject (e : Err) (s : Cell) : Bool × Cell :=
  if s.resolved_ then (false, s)
  else (true, { s with resolved_ := true, exception_ := some e })

/-- `Resolve<T>::operator()` (`impl/Promise.inl` lines 127-135): guarded
by the capability's own `resolved_` flag; on first use it invokes the
implementation callback — whose resolver-level boolean result is
discarded — and returns true, on later uses it returns false. -/
def capResolve (v : Val) (s : Cell) : Bool × Cell :=
  if s.res_used then (false, s)
  else (true, (resolverResolve v { s with res_used := true }).2)

/-- `Reject::operator()` (`src/Promise.cpp`): guarded by the
capability's own `rejected_` flag; on first use it invokes the
implementation callback — discarding its boolean — and returns true, on
later uses it returns false. -/
def capReject (e : Err) (s : Cell) : Bool × Cell :=
  if s.rej_used then (false, s)
  else (true, (resolverReject e { s with rej_used := true }).2)

/-- Apply one request through the capability objects. -/
def capStep (s : Cell) : COp → Bool × Cell
  | .resolve v => capResolve v s
  | .reject e => capReject e s

/-- Run a sequence of requests through the capability objects, collecting
the booleans they return. -/
def runCaps (s : Cell) : List COp → List Bool × Cell
  | [] => ([], s)
  | op :: rest =>
    let r := capStep s op
    let rs := runCaps r.2 rest
    (r.1 :: rs.1, rs.2)

/-- State of one promise (`Handle` and `details::Promise` in
`impl/Promise.inl`) at the granularity of its mutex: `outcome` is the
settlement cell (`none` pending, `some true` a stored value,
`some false` a stored exception; the shared `resolved_` flag is set
exactly when `outcome` is `some`, which is the linearization point of
settlement under the lock), `bodyDone` is `handle_ == nullptr`,
`awaiters` the registered continuation handles, `resumed` the log of
`awaiter.resume()` calls, `syncReady` the log of consumers whose
`await_ready` returned true so that they completed synchronously without
registering, and `self_owned` the self-ownership slot installed by
`Detach`. -/
structure PState where
  outcome : Option Bool
  bodyDone : Bool
  awaiters : List Nat
  resumed : List Nat
  syncReady : List Nat
  self_owned : Bool
deriving DecidableEq, Repr

/-- One critical section on a promise: a consumer running
`await_ready`/`await_suspend` under the lock held across both
(`register`), a resolver call storing a value or an exception
(`settle`), the coroutine body reaching `final_suspend`
(`bodyComplete`), or a `Detach` call. -/
inductive Event where
  | register (c : Nat)
  | settle (isValue : Bool)
  | bodyComplete
  | detach
deriving DecidableEq, Repr

/-- `Handle::OnResolved` (`impl/Promise.inl` lines 483-501): if `Done`
(the coroutine handle is null) the awaiter list is swapped out, the
self-ownership slot is released, and every drained continuation is
resumed after the lock is dropped; otherwise nothing happens (the pass
is deferred to `final_suspend`). -/
def onResolved (s : PState) : PState :=
  if s.bodyDone then
    { s with awaiters := [], resumed := s.resumed ++ s.awaiters,
             self_owned := false }
  else s

/-- `Resolver::Resolve`/`Resolver::Reject` (`impl/Promise.inl` lines
171-203): only the first call wins the `resolved_` exchange; the winner
stores the outcome under the lock and calls `OnResolved`. -/
def settleStep (isValue : Bool) (s : PState) : PState :=
  if s.outcome.isSome then s
  else onResolved { s with outcome := some isValue }

/-- `PromiseType::final_suspend` (`impl/Promise.inl` lines 418-433):
runs once when the body completes; it clears `handle_` under the lock
and, if the cell is already settled (`IsDone`), performs the resumption
pass via `OnResolved`. -/
def finalSuspendStep (s : PState) : PState :=
  if s.bodyDone then s
  else
    let s' := { s with bodyDone := true }
    if s'.outcome.isSome then onResolved s' else s'

/-- A consumer's combined `await_ready`/`await_suspend`
(`impl/Promise.inl` lines 594-607, 681-692): `await_ready` takes the
lock and returns `Ready` (an exception or a value is stored, i.e. the
cell is settled); if not ready, `await_suspend` appends the continuation
to the awaiter list before the same lock is released, so the check and
the registration form one critical section. -/
def registerStep (c : Nat) (s : PState) : PState :=
  if s.outcome.isSome then { s with syncReady := s.syncReady ++ [c] }
  else { s with awaiters := s.awaiters ++ [c] }

/-- `ValuePromise::IsResolved` (`impl/Promise.inl` lines 278-296): for a
non-void value type it checks that a value is stored
(`resolver_->value_ != nullptr`); for a void one it reads the shared
`resolved_` flag, which is set by `Reject` as well — so a rejected void
promise counts as resolved here. -/
def isResolvedOf (isVoid : Bool) (s : PState) : Bool :=
  if isVoid then s.outcome.isSome else s.outcome == some true

/-- `Handle::Detach` (`impl/Promise.inl` lines 503-518): under the lock,
if `IsResolved` is false the shared pointer to the promise itself is
stored into `self_owned_`; otherwise nothing happens. -/
def detachStep (isVoid : Bool) (s : PState) : PState :=
  if isResolvedOf isVoid s then s
  else { s with self_owned := true }

/-- Dispatch one critical section. -/
def step (isVoid : Bool) (s : PState) : Event → PState
  | .register c => registerStep c s
  | .settle b => settleStep b s
  | .bodyComplete => finalSuspendStep s
  | .detach => detachStep isVoid s

/-- Run a sequence of critical sections.  Distinct threads interleaving
on one promise are faithfully modelled by an arbitrary order of these
events, because each event is a single critical section of the promise
mutex (settlement linearizes at its lock acquisition: the `resolved_`
exchange only elects the winner, and the winner's store and resumption
pass happen under the lock). -/
def runEvents (isVoid : Bool) (s : PState) (es : List Event) : PState :=
  es.foldl (step isVoid) s

/-- Fresh promise state: pending, no awaiters, not self-owned; `bd` is
true for a promise created without a coroutine body (the static
`Resolve`/`Reject` constructors pass a null handle) and false for a
running body. -/
def startState (bd : Bool) : PState := ⟨none, bd, [], [], [], false⟩

/-- Continuations submitted to `await_ready`/`await_suspend` in an event
sequence. -/
def registrations : List Event → List Nat
  | [] => []
  | .register c :: es => c :: registrations es
  | _ :: es => registrations es

/-- Invariant carried through every critical section: once the cell is
settled and the body is done the awaiter list is empty, and the
registration attempts are partitioned, with multiplicity, into resumed
continuations, synchronously-completed consumers, and still-pending
awaiters. -/
def InvP (s : PState) (rs : List Nat) : Prop :=
  (s.outcome.isSome = true → s.bodyDone = true → s.awaiters = []) ∧
  ∀ c, s.resumed.count c + s.syncReady.count c + s.awaiters.count c = rs.count c

theorem invP_step (isVoid : Bool) (s : PState) (e : Event) (rs : List Nat)
    (h : InvP s rs) : InvP (step isVoid s e) (rs ++ registrations [e]) := by
  obtain ⟨h1, h2⟩ := h
  cases e with
  | register c =>
    by_cases hs : s.outcome.isSome = true
    · have hstep : step isVoid s (Event.register c)
          = { s with syncReady := s.syncReady ++ [c] } := by
        simp [step, registerStep, hs]
      rw [hstep]
      refine ⟨fun ho hb => h1 ho hb, fun d => ?_⟩
      show s.resumed.count d + (s.syncReady ++ [c]).count d
          + s.awaiters.count d = (rs ++ [c]).count d
      simp only [List.count_append]
      have := h2 d
      omega
    · simp only [Bool.not_eq_true] at hs
      have hstep : step isVoid s (Event.register c)
          = { s with awaiters := s.awaiters ++ [c] } := by
        simp [step, registerStep, hs]
      rw [hstep]
      refine ⟨fun ho hb => ?_, fun d => ?_⟩
      · have ho' : s.outcome.isSome = true := ho
        rw [hs] at ho'
        simp at ho'
      · show s.resumed.count d + s.syncReady.count d
            + (s.awaiters ++ [c]).count d = (rs ++ [c]).count d
        simp only [List.count_append]
        have := h2 d
        omega
  | settle b =>
    by_cases hs : s.outcome.isSome = true
    · have hstep : step isVoid s (Event.settle b) = s := by
        simp [step, settleStep, hs]
      rw [hstep]
      show InvP s (rs ++ [])
      rw [List.append_nil]
      exact ⟨h1, h2⟩
    · simp only [Bool.not_eq_true] at hs
      by_cases hb : s.bodyDone = true
      · have hstep : step isVoid s (Event.settle b)
            = { s with outcome := some b, awaiters := [],
                       resumed := s.resumed ++ s.awaiters,
                       self_owned := false } := by
          simp [step, settleStep, hs, onResolved, hb]
        rw [hstep]
        refine ⟨fun _ _ => rfl, fun d => ?_⟩
        show (s.resumed ++ s.awaiters).count d + s.syncReady.count d
            + ([] : List Nat).count d = (rs ++ []).count d
        simp only [List.count_append, List.count_nil, List.append_nil]
        have := h2 d
        omega
      · simp only [Bool.not_eq_true] at hb
        have hstep : step isVoid s (Event.settle b)
            = { s with outcome := some b } := by
          simp [step, settleStep, hs, onResolved, hb]
        rw [hstep]
        refine ⟨fun _ hbd => ?_, fun d => ?_⟩
        · have hbd' : s.bodyDone = true := hbd
          rw [hb] at hbd'
          simp at hbd'
        · show s.resumed.count d + s.syncReady.count d
              + s.awaiters.count d = (rs ++ []).count d
          rw [List.append_nil]
          exact h2 d
  | bodyComplete =>
    by_cases hb : s.bodyDone = true
    · have hstep : step isVoid s Event.bodyComplete = s := by
        simp [step, finalSuspendStep, hb]
      rw [hstep]
      show InvP s (rs ++ [])
      rw [List.append_nil]
      exact ⟨h1, h2⟩
    · simp only [Bool.not_eq_true] at hb
      by_cases hs : s.outcome.isSome = true
      · have hstep : step isVoid s Event.bodyComplete
            = { s with bodyDone := true, awaiters := [],
                       resumed := s.resumed ++ s.awaiters,
                       self_owned := false } := by
          simp [step, finalSuspendStep, hb, hs, onResolved]
        rw [hstep]
        refine ⟨fun _ _ => rfl, fun d => ?_⟩
        show (s.resumed ++ s.awaiters).count d + s.syncReady.count d
            + ([] : List Nat).count d = (rs ++ []).count d
        simp only [List.count_append, List.count_nil, List.append_nil]
        have := h2 d
        omega
      · simp only [Bool.not_eq_true] at hs
        have hstep : step isVoid s Event.bodyComplete
            = { s with bodyDone := true } := by
          simp [step, finalSuspendStep, hb, hs, onResolved]
        rw [hstep]
        refine ⟨fun ho _ => ?_, fun d => ?_⟩
        · have ho' : s.outcome.isSome = true := ho
          rw [hs] at ho'
          simp at ho'
        · show s.resumed.count d + s.syncReady.count d
              + s.awaiters.count d = (rs ++ []).count d
          rw [List.append_nil]
          exact h2 d
  | detach =>
    by_cases hr : isResolvedOf isVoid s = true
    · have hstep : step isVoid s Event.detach = s := by
        simp [step, detachStep, hr]
      rw [hstep]
      show InvP s (rs ++ [])
      rw [List.append_nil]
      exact ⟨h1, h2⟩
    · have hstep : step isVoid s Event.detach
          = { s with self_owned := true } := by
        simp [step, detachStep, hr]
      rw [hstep]
      refine ⟨fun ho hb => h1 ho hb, fun d => ?_⟩
      show s.resumed.count d + s.syncReady.count d
          + s.awaiters.count d = (rs ++ []).count d
      rw [List.append_nil]
      exact h2 d

theorem registrations_cons (e : Event) (es : List Event) :
    registrations (e :: es) = registrations [e] ++ registrations es := by
  cases e <;> simp [registrations]

theorem invP_run (isVoid : Bool) (es : List Event) (s : PState)
    (rs : List Nat) (h : InvP s rs) :
    InvP (runEvents isVoid s es) (rs ++ registrations es) := by
  induction es generalizing s rs with
  | nil =>
    show InvP s (rs ++ registrations [])
    simpa [registrations] using h
  | cons e es ih =>
    have h1 := invP_step isVoid s e rs h
    have h2 := ih (step isVoid s e) (rs ++ registrations [e]) h1
    show InvP (runEvents isVoid (step isVoid s e) es) _
    rw [registrations_cons, ← List.append_assoc]
    exact h2

theorem step_outcome_mono (isVoid : Bool) (s : PState) (e : Event)
    (h : s.outcome.isSome = true) :
    (step isVoid s e).outcome.isSome = true := by
  cases e with
  | register c => simp [step, registerStep, h]
  | settle b => simp [step, settleStep, h]
  | bodyComplete =>
    by_cases hb : s.bodyDone = true
    · simp [step, finalSuspendStep, hb, h]
    · simp only [Bool.not_eq_true] at hb
      simp [step, finalSuspendStep, hb, onResolved, h]
  | detach =>
    by_cases hr : isResolvedOf isVoid s = true
    · simp [step, detachStep, hr, h]
    · simp [step, detachStep, hr, h]

theorem step_bodyDone_mono (isVoid : Bool) (s : PState) (e : Event)
    (h : s.bodyDone = true) : (step isVoid s e).bodyDone = true := by
  cases e with
  | register c =>
    simp only [step, registerStep]
    split <;> simp [h]
  | settle b =>
    simp only [step, settleStep]
    split
    · exact h
    · simp [onResolved, h]
  | bodyComplete => simp [step, finalSuspendStep, h]
  | detach =>
    simp only [step, detachStep]
    split <;> simp [h]

theorem run_outcome_mono (isVoid : Bool) (es : List Event) (s : PState)
    (h : s.outcome.isSome = true) :
    (runEvents isVoid s es).outcome.isSome = true := by
  induction es generalizing s with
  | nil => exact h
  | cons e es ih =>
    exact ih (step isVoid s e) (step_outcome_mono isVoid s e h)

theorem run_bodyDone_mono (isVoid : Bool) (es : List Event) (s : PState)
    (h : s.bodyDone = true) :
    (runEvents isVoid s es).bodyDone = true := by
  induction es generalizing s with
  | nil => exact h
  | cons e es ih =>
    exact ih (step isVoid s e) (step_bodyDone_mono isVoid s e h)

theorem runEvents_cons (isVoid : Bool) (s : PState) (e : Event)
    (es : List Event) :
    runEvents isVoid s (e :: es) = runEvents isVoid (step isVoid s e) es :=
  rfl

theorem run_settle_isSome (isVoid : Bool) (es : List Event) (s : PState)
    (b : Bool) (h : Event.settle b ∈ es) :
    (runEvents isVoid s es).outcome.isSome = true := by
  induction es generalizing s with
  | nil => cases h
  | cons e es ih =>
    rcases List.mem_cons.mp h with he | he
    · subst he
      rw [runEvents_cons]
      apply run_outcome_mono
      by_cases hs : s.outcome.isSome = true
      · exact step_outcome_mono isVoid s (Event.settle b) hs
      · simp only [Bool.not_eq_true] at hs
        simp only [step, settleStep, hs, Bool.false_eq_true, if_false,
          onResolved]
        split <;> simp
    · rw [runEvents_cons]
      exact ih (step isVoid s e) he

theorem run_bodyComplete_done (isVoid : Bool) (es : List Event)
    (s : PState) (h : Event.bodyComplete ∈ es) :
    (runEvents isVoid s es).bodyDone = true := by
  induction es generalizing s with
  | nil => cases h
  | cons e es ih =>
    rcases List.mem_cons.mp h with he | he
    · subst he
      rw [runEvents_cons]
      apply run_bodyDone_mono
      by_cases hb : s.bodyDone = true
      · exact step_bodyDone_mono isVoid s Event.bodyComplete hb
      · simp only [Bool.not_eq_true] at hb
        simp only [step, finalSuspendStep, hb, Bool.false_eq_true,
          if_false, onResolved]
        split <;> simp
    · rw [runEvents_cons]
      exact ih (step isVoid s e) he

theorem selfOwned_persists (isVoid : Bool) (es : List Event) (s : PState)
    (h1 : s.outcome.isSome = true) (h2 : s.bodyDone = true)
    (h3 : s.self_owned = true) :
    (runEvents isVoid s es).self_owned = true := by
  induction es generalizing s with
  | nil => exact h3
  | cons e es ih =>
    rw [runEvents_cons]
    refine ih (step isVoid s e) (step_outcome_mono isVoid s e h1)
      (step_bodyDone_mono isVoid s e h2) ?_
    cases e with
    | register c => simp [step, registerStep, h1, h3]
    | settle b => simp [step, settleStep, h1, h3]
    | bodyComplete => simp [step, finalSuspendStep, h2, h3]
    | detach =>
      simp only [step, detachStep]
      split
      · exact h3
      · rfl

/-- C1: for every interleaving of continuation registration
(`await_ready`/`await_suspend`) and settlement (`Resolver` calls and
body completion) on one promise state, the registration attempts are
exactly partitioned into continuations resumed by the drain pass and
consumers that observed `await_ready` true synchronously; once a
settlement and the body completion have both occurred the awaiter list
is empty, every registration has been accounted for exactly once (no
missed wakeups), and no continuation is resumed more often than it
registered (no double wakeups). -/
theorem registered_continuations_resumed_exactly_once
    (isVoid bd : Bool) (es : List Event) (c : Nat)
    (hsettle : ∃ b, Event.settle b ∈ es)
    (hbody : bd = true ∨ Event.bodyComplete ∈ es) :
    (runEvents isVoid (startState bd) es).awaiters = []
  ∧ (runEvents isVoid (startState bd) es).resumed.count c
      + (runEvents isVoid (startState bd) es).syncReady.count c
      = (registrations es).count c
  ∧ (runEvents isVoid (startState bd) es).resumed.count c
      ≤ (registrations es).count c := by
  obtain ⟨b, hmem⟩ := hsettle
  have hstart : InvP (startState bd) [] := by
    refine ⟨fun _ _ => rfl, fun d => ?_⟩
    simp [startState]
  have hinv := invP_run isVoid es (startState bd) [] hstart
  rw [List.nil_append] at hinv
  obtain ⟨h1, h2⟩ := hinv
  have ho : (runEvents isVoid (startState bd) es).outcome.isSome = true :=
    run_settle_isSome isVoid es (startState bd) b hmem
  have hd : (runEvents isVoid (startState bd) es).bodyDone = true := by
    rcases hbody with h | h
    · subst h
      exact run_bodyDone_mono isVoid es (startState true) rfl
    · exact run_bodyComplete_done isVoid es (startState bd) h
  have hA : (runEvents isVoid (startState bd) es).awaiters = [] := h1 ho hd
  have hz : (runEvents isVoid (startState bd) es).awaiters.count c = 0 := by
    rw [hA]; rfl
  have hc := h2 c
  exact ⟨hA, by omega, by omega⟩

/-- Witness for C1: the interleaving where a continuation registers
while pending, the promise is then resolved and the body completes. -/
theorem registered_continuations_resumed_exactly_once_witness :
    (runEvents false (startState false)
        [Event.register 0, Event.settle true, Event.bodyComplete]).awaiters
      = []
  ∧ (runEvents false (startState false)
        [Event.register 0, Event.settle true, Event.bodyComplete]).resumed.count 0
      + (runEvents false (startState false)
        [Event.register 0, Event.settle true, Event.bodyComplete]).syncReady.count 0
      = (registrations
          [Event.register 0, Event.settle true, Event.bodyComplete]).count 0
  ∧ (runEvents false (startState false)
        [Event.register 0, Event.settle true, Event.bodyComplete]).resumed.count 0
      ≤ (registrations
          [Event.register 0, Event.settle true, Event.bodyComplete]).count 0 :=
  registered_continuations_resumed_exactly_once false false
    [Event.register 0, Event.settle true, Event.bodyComplete] 0
    ⟨true, by decide⟩ (Or.inr (by decide))

/-- C9: evidence of the code bug.  `Detach` is a no-op on a promise
already resolved with a value (last conjunct), but on a non-void promise
already settled with an error (`IsResolved` false, `IsDone` true) it
still installs the self-ownership loop, and no later event ever releases
it — the drain pass that clears `self_owned_` has already run, so the
loop persists under every continuation of the execution. -/
theorem detach_after_rejection_installs_permanent_self_ownership :
    (runEvents false (startState true) [Event.settle false]).self_owned
      = false
  ∧ (runEvents false (startState true)
        [Event.settle false, Event.detach]).self_owned = true
  ∧ (∀ es : List Event,
      (runEvents false
        (runEvents false (startState true) [Event.settle false, Event.detach])
        es).self_owned = true)
  ∧ (runEvents false (startState true)
        [Event.settle true, Event.detach]).self_owned = false := by
  refine ⟨by decide, by decide, fun es => ?_, by decide⟩
  exact selfOwned_persists false es
    (runEvents false (startState true) [Event.settle false, Event.detach])
    (by decide) (by decide) (by decide)

theorem catchResultTy_eq_spec (T T2 : Ty) :
    catchResultTy T T2 = specCatchTable T T2 := by
  cases T with
  | void => cases T2 <;> rfl
  | base a =>
    cases T2 with
    | void => rfl
    | base b =>
      simp only [catchResultTy, specCatchTable]
      by_cases hab : a = b
      · subst hab; simp
      · simp [hab]

theorem catchPass_hasRTy (T T2 : Ty) (v : Val) (hv : v.hasTy T = true) :
    (catchPass T T2 v).hasRTy (catchResultTy T T2) = true := by
  cases T with
  | void =>
    cases v with
    | unit => cases T2 <;> rfl
    | prim x => simp [Val.hasTy] at hv
    | optNone => simp [Val.hasTy] at hv
    | optSome x => simp [Val.hasTy] at hv
    | varFst x => simp [Val.hasTy] at hv
    | varSnd x => simp [Val.hasTy] at hv
  | base a =>
    cases v with
    | prim x =>
      cases T2 with
      | void => rfl
      | base b =>
        by_cases hab : a = b
        · subst hab; simp [catchPass, catchResultTy, Val.hasRTy]
        · simp [catchPass, catchResultTy, hab, Val.hasRTy]
    | unit => simp [Val.hasTy] at hv
    | optNone => simp [Val.hasTy] at hv
    | optSome x => simp [Val.hasTy] at hv
    | varFst x => simp [Val.hasTy] at hv
    | varSnd x => simp [Val.hasTy] at hv

theorem catchHandlerWrap_hasRTy (T T2 : Ty) (r : Val)
    (hr : r.hasTy T2 = true) :
    (catchHandlerWrap T T2 r).hasRTy (catchResultTy T T2) = true := by
  cases T2 with
  | void =>
    cases T <;> rfl
  | base b =>
    cases r with
    | prim x =>
      cases T with
      | void => rfl
      | base a =>
        by_cases hab : a = b
        · subst hab; simp [catchHandlerWrap, catchResultTy, Val.hasRTy]
        · simp [catchHandlerWrap, catchResultTy, hab, Val.hasRTy]
    | unit => simp [Val.hasTy] at hr
    | optNone => simp [Val.hasTy] at hr
    | optSome x => simp [Val.hasTy] at hr
    | varFst x => simp [Val.hasTy] at hr
    | varSnd x => simp [Val.hasTy] at hr

/-- C2: the value type computed by `Catch` agrees with the
specification's table for every pair of antecedent and handler-return
types; on a resolved antecedent the continuation never invokes the
handler and passes the value through with exactly the wrapping of the
table (`n` and `m` are two distinct non-void type codes standing for
the `T == T2` and `T != T2` rows); on a rejection matched by the
handler the handler runs exactly once and its return value lands in the
result with the wrapping of the table, and both produced values are
well-typed at the computed result type. -/
theorem catch_type_table_and_passthrough (n m : Nat) (p : HandlerParam)
    (h : Err → Val) (e : Err) (v : Val) (T T2 : Ty)
    (hnm : n ≠ m) (hmatch : catchMatches p e = true)
    (hv : v.hasTy T = true) (hh : (h e).hasTy T2 = true) :
    catchResultTy T T2 = specCatchTable T T2
  ∧ catchRun T T2 p h (Outcome.resolved v)
      = ⟨Outcome.resolved (catchPass T T2 v), 0⟩
  ∧ (catchPass T T2 v).hasRTy (catchResultTy T T2) = true
  ∧ catchPass Ty.void Ty.void Val.unit = Val.unit
  ∧ (∀ x, catchPass (Ty.base n) Ty.void (Val.prim x) = Val.optSome x)
  ∧ (∀ x, catchPass Ty.void (Ty.base m) x = Val.optNone)
  ∧ (∀ x, catchPass (Ty.base n) (Ty.base n) (Val.prim x) = Val.prim x)
  ∧ (∀ x, catchPass (Ty.base n) (Ty.base m) (Val.prim x) = Val.varSnd x)
  ∧ catchRun T T2 p h (Outcome.rejected e)
      = ⟨Outcome.resolved (catchHandlerWrap T T2 (h e)), 1⟩
  ∧ (catchHandlerWrap T T2 (h e)).hasRTy (catchResultTy T T2) = true
  ∧ (∀ x, catchHandlerWrap (Ty.base n) Ty.void x = Val.optNone)
  ∧ (∀ x, catchHandlerWrap Ty.void (Ty.base m) (Val.prim x) = Val.optSome x)
  ∧ (∀ x, catchHandlerWrap (Ty.base n) (Ty.base n) (Val.prim x) = Val.prim x)
  ∧ (∀ x, catchHandlerWrap (Ty.base n) (Ty.base m) (Val.prim x) = Val.varFst x) := by
  refine ⟨catchResultTy_eq_spec T T2, rfl, catchPass_hasRTy T T2 v hv, rfl,
    fun x => rfl, fun x => ?_, fun x => by simp [catchPass],
    fun x => by simp [catchPass, hnm], by simp [catchRun, hmatch],
    catchHandlerWrap_hasRTy T T2 (h e) hh, fun x => rfl,
    fun x => rfl, fun x => by simp [catchHandlerWrap],
    fun x => by simp [catchHandlerWrap, hnm]⟩
  cases x <;> rfl

/-- Witness for C2 at the `T != T2` row with a generic handler on a
resolved antecedent. -/
theorem catch_type_table_and_passthrough_witness :
    catchRun (Ty.base 0) (Ty.base 1) HandlerParam.excPtr (fun _ => Val.prim 3)
        (Outcome.resolved (Val.prim 4))
      = ⟨Outcome.resolved (catchPass (Ty.base 0) (Ty.base 1) (Val.prim 4)), 0⟩ :=
  (catch_type_table_and_passthrough 0 1 HandlerParam.excPtr
      (fun _ => Val.prim 3) ⟨[5], 9⟩ (Val.prim 4) (Ty.base 0) (Ty.base 1)
      (by decide) (by decide) (by decide) (by decide)).2.1

/-- Concrete error for C3: dynamically of the single class coded 1. -/
def errC3 : Err := ⟨[1], 42⟩

/-- Concrete handler for C3: recovers with the value 7. -/
def hdlC3 : Err → Val := fun _ => Val.prim 7

/-- C3: evidence of the code bug.  The continuation-body semantics do
implement the claimed matching (a generic `std::exception_ptr` handler
matches any rejection, a concrete-type handler matches exactly when the
stored error is dynamically of that type or a subtype, and otherwise
the original error re-propagates), but for an antecedent that is
already settled rejected when `Catch` is called the fast path returns
the original rejection without ever invoking the handler — even a
generic handler — contradicting the claim's "whether the antecedent is
still pending or already settled". -/
theorem catch_already_rejected_skips_handler :
    catchFast (Ty.base 0) (Ty.base 0) (Outcome.rejected errC3)
      = ⟨Outcome.rejected errC3, 0⟩
  ∧ catchRun (Ty.base 0) (Ty.base 0) HandlerParam.excPtr hdlC3
      (Outcome.rejected errC3)
      = ⟨Outcome.resolved (Val.prim 7), 1⟩
  ∧ (∀ T T2 (h : Err → Val) (e : Err),
      catchRun T T2 HandlerParam.excPtr h (Outcome.rejected e)
        = ⟨Outcome.resolved (catchHandlerWrap T T2 (h e)), 1⟩)
  ∧ (∀ T T2 (h : Err → Val) (e : Err) (t : Nat),
      catchRun T T2 (HandlerParam.concrete t) h (Outcome.rejected e)
        = if e.dynTys.contains t
          then ⟨Outcome.resolved (catchHandlerWrap T T2 (h e)), 1⟩
          else ⟨Outcome.rejected e, 0⟩) := by
  refine ⟨by decide, by decide, fun T T2 h e => by simp [catchRun, catchMatches],
    fun T T2 h e t => ?_⟩
  by_cases hc : e.dynTys.contains t = true
  · simp [catchRun, catchMatches, hc]
  · simp only [Bool.not_eq_true] at hc
    simp [catchRun, catchMatches, hc]

/-- Concrete error for C5. -/
def errC5 : Err := ⟨[2], 5⟩

/-- Concrete handler for C5: recovers with the value 3. -/
def hdlC5 : Err → Val := fun _ => Val.prim 3

theorem catchFast_resolved (T T2 : Ty) (v : Val) :
    catchFast T T2 (Outcome.resolved v)
      = ⟨Outcome.resolved (catchPass T T2 v), 0⟩ := by
  cases T <;> cases T2 <;> cases v <;> rfl

/-- C5: evidence of the code bug.  `Then`'s fast path is taken only on a
resolved antecedent and there agrees with the suspension path, with a
handler exception becoming a rejection (first two conjuncts), and
`Catch`'s fast path agrees with the suspension path on a resolved
antecedent (third conjunct); but on an antecedent already settled
rejected, `Catch`'s fast path (gated on `IsDone`, not on resolved-ness)
rejects without invoking the handler while the suspension path recovers
through the handler, so the two observable results differ. -/
theorem fastpath_equivalence_fails_for_rejected_catch :
    (∀ (h : Val → Except Err Val) (v : Val),
        thenFast h (Outcome.resolved v)
          = some (thenSlow h (Outcome.resolved v)))
  ∧ (∀ (h : Val → Except Err Val) (e : Err),
        thenFast h (Outcome.rejected e) = none)
  ∧ (∀ (T T2 : Ty) (p : HandlerParam) (h : Err → Val) (v : Val),
        catchFast T T2 (Outcome.resolved v)
          = catchRun T T2 p h (Outcome.resolved v))
  ∧ catchFast Ty.void (Ty.base 1) (Outcome.rejected errC5)
      = ⟨Outcome.rejected errC5, 0⟩
  ∧ catchRun Ty.void (Ty.base 1) HandlerParam.excPtr hdlC5
      (Outcome.rejected errC5)
      = ⟨Outcome.resolved (Val.optSome 3), 1⟩
  ∧ catchFast Ty.void (Ty.base 1) (Outcome.rejected errC5)
      ≠ catchRun Ty.void (Ty.base 1) HandlerParam.excPtr hdlC5
          (Outcome.rejected errC5) := by
  refine ⟨fun h v => rfl, fun h e => rfl,
    fun T T2 p h v => catchFast_resolved T T2 v, by decide, by decide,
    by decide⟩

/-- Concrete error for C6. -/
def errC6 : Err := ⟨[3], 8⟩

/-- Concrete handler for C6: returns the value 1 without throwing. -/
def hdlC6 : Unit → Except Err Val := fun _ => Except.ok (Val.prim 1)

/-- C6: evidence of the code bug.  On the suspension path a rejected
antecedent bypasses the `Then` handler and the rejection passes through
unchanged, for non-void and void antecedents alike (first two
conjuncts); but a void antecedent that is already rejected when `Then`
is called passes the fast-path gate (`IsResolved` for void reads the
shared `resolved_` flag, which `Reject` also sets), so the handler is
invoked and its result resolves the new promise, dropping the error —
contradicting the claim. -/
theorem then_rejection_bypasses_handler :
    (∀ (h : Val → Except Err Val) (e : Err),
        thenSlow h (Outcome.rejected e) = (Outcome.rejected e, 0))
  ∧ (∀ (h : Unit → Except Err Val) (e : Err),
        thenVoidSlow (Outcome.rejected e) h = (Outcome.rejected e, 0))
  ∧ thenVoidFastTaken ⟨true, some errC6⟩ = true
  ∧ thenVoidFastBody hdlC6 = (Outcome.resolved (Val.prim 1), 1)
  ∧ thenVoidFastBody hdlC6 ≠ (Outcome.rejected errC6, 0) :=
  ⟨fun h e => rfl, fun h e => rfl, rfl, rfl, by decide⟩

/-- Concrete error for C7. -/
def errC7 : Err := ⟨[4], 6⟩

/-- C7: the continuation body of `Finally` runs the handler exactly once
and forwards the antecedent's outcome unchanged unless the handler
itself throws, in which case the handler's exception is what propagates
(superseding a resolution, and replacing the original error when the
handler throws after a rejection); the non-void fast path agrees.  But a
void antecedent already settled rejected passes the fast-path gate and
the fast path then resolves the new promise, dropping the stored error —
the code-bug evidence for the pass-through part of the claim. -/
theorem finally_passthrough_and_void_fastpath :
    (∀ (oc : Outcome) (h : Except Err Unit),
        finallyBody oc h
          = ((match h with
              | .ok _ => oc
              | .error f => Outcome.rejected f), 1))
  ∧ (∀ (v : Val) (h : Except Err Unit),
        finallyFast v h = finallyBody (Outcome.resolved v) h)
  ∧ finallyVoidFastTaken ⟨true, some errC7⟩ = true
  ∧ finallyVoidFastBody (Except.ok ()) = (Outcome.resolved Val.unit, 1)
  ∧ finallyVoidFastBody (Except.ok ()) ≠ (Outcome.rejected errC7, 1) := by
  refine ⟨fun oc h => ?_, fun v h => ?_, rfl, rfl, by decide⟩
  · cases oc <;> cases h <;> rfl
  · cases h <;> rfl

/-- C10: resuming a promise body that was not wired up through
`MakePromise` throws exactly the documented `std::runtime_error` when
the promise is resolver-style, installs a default resolver and proceeds
when it is resolver-less, and proceeds untouched when a resolver is
already present. -/
theorem init_suspend_resolver_check :
    initSuspendResume true false
      = Except.error "Promise with resolver must be created with MakePromise"
  ∧ initSuspendResume false false = Except.ok true
  ∧ (∀ w, initSuspendResume w true = Except.ok true) :=
  ⟨rfl, rfl, fun _ => rfl⟩

/-- Concrete error for C4. -/
def errC4 : Err := ⟨[6], 11⟩

/-- C4 counterexample: after a winning `Resolve(5)`, a call through the
`Reject` capability object returns `true` — because its own
`rejected_` flag was still unset and the resolver-level boolean is
discarded — while the stored outcome remains the value `5` with no
exception; the claim's "every subsequent resolve/reject attempt returns
false" predicts `[true, false]`. -/
theorem capability_reject_after_resolve_returns_true :
    runCaps Cell.start [COp.resolve (Val.prim 5), COp.reject errC4]
      = ([true, true], ⟨true, some (Val.prim 5), none, true, true⟩)
  ∧ (runCaps Cell.start [COp.resolve (Val.prim 5), COp.reject errC4]).1
      ≠ [true, false] := by
  exact ⟨by decide, by decide⟩

theorem first_op_state (op : COp) :
    (capStep Cell.start op).2.resolved_ = true
  ∧ ((capStep Cell.start op).2.value_.isSome
    && (capStep Cell.start op).2.exception_.isSome) = false := by
  cases op <;> exact ⟨rfl, rfl⟩

theorem capStep_settled (s : Cell) (op : COp) (h : s.resolved_ = true) :
    (capStep s op).2.resolved_ = true
  ∧ (capStep s op).2.value_ = s.value_
  ∧ (capStep s op).2.exception_ = s.exception_ := by
  cases op with
  | resolve v =>
    simp only [capStep, capResolve]
    split
    · exact ⟨h, rfl, rfl⟩
    · simp [resolverResolve, h]
  | reject e =>
    simp only [capStep, capReject]
    split
    · exact ⟨h, rfl, rfl⟩
    · simp [resolverReject, h]

theorem runCaps_settled (s : Cell) (ops : List COp)
    (h : s.resolved_ = true) :
    (runCaps s ops).2.resolved_ = true
  ∧ (runCaps s ops).2.value_ = s.value_
  ∧ (runCaps s ops).2.exception_ = s.exception_ := by
  induction ops generalizing s with
  | nil => exact ⟨h, rfl, rfl⟩
  | cons op ops ih =>
    obtain ⟨a, b, c⟩ := capStep_settled s op h
    obtain ⟨a', b', c'⟩ := ih (capStep s op).2 a
    exact ⟨a', b'.trans b, c'.trans c⟩

/-- C4 amended: at most one of value and exception ever becomes
present, the shared settled flag becomes true with the first request
and the stored outcome is the first request's outcome; the first call
returns true; the booleans of the resolver-level `Resolve`/`Reject`
methods report whether the call won the race; but the boolean returned
by a `Resolve`/`Reject` capability object only reports the first use of
that capability — a reject through the capability after a winning
resolve (and vice versa) returns true while leaving the outcome
unchanged, and only a second use of the same capability returns
false. -/
theorem settlement_single_winner_amended
    (ops : List COp) (op : COp) (v w : Val) (e f : Err) (s : Cell) :
    ((runCaps Cell.start ops).2.value_.isSome
        && (runCaps Cell.start ops).2.exception_.isSome) = false
  ∧ (runCaps Cell.start []).2.resolved_ = false
  ∧ (runCaps Cell.start (op :: ops)).2.resolved_ = true
  ∧ (runCaps Cell.start (op :: ops)).2.value_
      = (capStep Cell.start op).2.value_
  ∧ (runCaps Cell.start (op :: ops)).2.exception_
      = (capStep Cell.start op).2.exception_
  ∧ (runCaps Cell.start (op :: ops)).1.head? = some true
  ∧ (resolverResolve v s).1 = !s.resolved_
  ∧ (resolverReject e s).1 = !s.resolved_
  ∧ capReject e (capResolve v Cell.start).2
      = (true, ⟨true, some v, none, true, true⟩)
  ∧ capResolve v (capReject e Cell.start).2
      = (true, ⟨true, none, some e, true, true⟩)
  ∧ (capResolve w (capResolve v Cell.start).2).1 = false
  ∧ (capReject f (capReject e Cell.start).2).1 = false := by
  have hfirst := first_op_state op
  have hrest := runCaps_settled (capStep Cell.start op).2 ops hfirst.1
  refine ⟨?_, rfl, hrest.1, hrest.2.1, hrest.2.2, ?_, ?_, ?_, rfl, rfl,
    rfl, rfl⟩
  · cases ops with
    | nil => rfl
    | cons op' ops' =>
      have h1 := first_op_state op'
      have h2 := runCaps_settled (capStep Cell.start op').2 ops' h1.1
      show ((runCaps (capStep Cell.start op').2 ops').2.value_.isSome
        && (runCaps (capStep Cell.start op').2 ops').2.exception_.isSome)
          = false
      rw [h2.2.1, h2.2.2]
      exact h1.2
  · show some (capStep Cell.start op).1 = some true
    cases op <;> rfl
  · cases hs : s.resolved_ <;> simp [resolverResolve, hs]
  · cases hs : s.resolved_ <;> simp [resolverReject, hs]

end PromiseSpec
